import Mathlib

/-!
Verification development for the MARA multi-agent research pipeline.

The definitions below are a shallow embedding of the coordination core of the
repository: the `Blackboard` shared store with change notification
(`src/main_mara_system.py` and `src/comm/blackboard.py`), the retrying data
acquisition loop (`src/agent/data_acquisition_agent.py`), the staleness
monitor (`src/agent/data_refresh_agent.py`), the knowledge synthesizer
(`src/agent/knowledge_synthesis_agent.py`), the knowledge query worker
(`src/agent/knowledge_query_agent.py`) and the reporting worker's failure
path (`src/agent/analysis_reporting_agent.py`).

Python values stored on the blackboard are modelled by the `PyVal` type;
Python dictionaries are association lists.  Methods that execute lock
acquisitions and observer callbacks are modelled as functions that return,
besides the updated store state, a list of `BBEvent` trace events recording
lock operations, notification, and callback invocations, so that properties
about lock/callback ordering can be stated.  Fallible worker code returns
`Except PyErr`, with one constructor per Python exception class that the
modelled code can raise.
-/

/-- A Python value as stored on the blackboard: strings, integers, `None`,
dictionaries (association lists keyed by strings) and lists. -/
inductive PyVal where
  | pyStr (s : String)
  | pyInt (n : Int)
  | pyNone
  | pyDict (entries : List (String × PyVal))
  | pyList (xs : List PyVal)

/-- Lookup in a Python dictionary modelled as an association list
(first binding wins). -/
def assocGet {α : Type} : List (String × α) → String → Option α
  | [], _ => none
  | (k', v) :: rest, k => if k' = k then some v else assocGet rest k

/-- Update / insert in a Python dictionary modelled as an association list:
overwrite the first binding of the key, or append a new binding. -/
def assocSet {α : Type} : List (String × α) → String → α → List (String × α)
  | [], k, v => [(k, v)]
  | (k', v') :: rest, k, v =>
      if k' = k then (k', v) :: rest else (k', v') :: assocSet rest k v

/-- State of the `Blackboard` class of `src/main_mara_system.py`
(also `src/comm/blackboard.py`): the `_data` map, the `_status` string and
the `_observers` registry.  Callbacks are identified by numeric ids. -/
structure BBState where
  data : List (String × PyVal)
  status : String
  observers : List (String × List Nat)

/-- Trace events of a blackboard operation: re-entrant lock acquisitions and
releases, entry into `_notify_observers` (`publish`), and the invocation of a
registered callback with the value it receives. -/
inductive BBEvent where
  | acquire
  | release
  | publish (key : String)
  | invoke (cb : Nat) (key : String) (value : PyVal)

/-- The value a notified callback receives:
`self.get_data(key) if key != "status" else self.get_status()`
(`main_mara_system.py` line 72).  `get_data` returns `None` for a missing
key. -/
def currentVal (s : BBState) (key : String) : PyVal :=
  if key = "status" then PyVal.pyStr s.status
  else (assocGet s.data key).getD PyVal.pyNone

/-- Trace of `Blackboard._notify_observers` (`main_mara_system.py` lines
63-75): acquire the (re-entrant) lock, snapshot the callback list, release,
then for each snapshotted callback re-read the current value (one more
acquire/release inside `get_data`/`get_status`) and invoke the callback.
Callback bodies themselves are not executed in this model; the `invoke`
event records the call.  The exception handler around each callback is why
no callback failure escapes `_notify_observers`. -/
def notifyEvents (s : BBState) (key : String) : List BBEvent :=
  let cbs := (assocGet s.observers key).getD []
  BBEvent.publish key :: BBEvent.acquire :: BBEvent.release ::
    cbs.flatMap (fun cb =>
      [BBEvent.acquire, BBEvent.release, BBEvent.invoke cb key (currentVal s key)])

/-- `Blackboard.set_data` (`main_mara_system.py` lines 27-32): under the
lock, store the value and call `_notify_observers(key)`; the notification
(and hence every callback invocation) happens before the writer's `with`
block releases the lock. -/
def setData (s : BBState) (key : String) (v : PyVal) : List BBEvent × BBState :=
  let s' : BBState := { s with data := assocSet s.data key v }
  (BBEvent.acquire :: notifyEvents s' key ++ [BBEvent.release], s')

/-- `Blackboard.set_status` (`main_mara_system.py` lines 42-47): under the
lock, store the new status and call `_notify_observers("status")`. -/
def setStatus (s : BBState) (st : String) : List BBEvent × BBState :=
  let s' : BBState := { s with status := st }
  (BBEvent.acquire :: notifyEvents s' "status" ++ [BBEvent.release], s')

/-- The guard of `Blackboard.age_data`: the key is present, its value is a
dict that has an `extracted_entities` dict which has a `data_age` entry
(held as an integer in every run of this system).  Returns the current age
when the guard passes. -/
def ageGuard (s : BBState) (key : String) : Option Int :=
  match assocGet s.data key with
  | some (PyVal.pyDict d) =>
    match assocGet d "extracted_entities" with
    | some (PyVal.pyDict e) =>
      match assocGet e "data_age" with
      | some (PyVal.pyInt n) => some n
      | _ => none
    | _ => none
  | _ => none

/-- Write `data_age := a` inside the nested `extracted_entities` dict of the
value stored at `key` (used only when `ageGuard` passed, mirroring
`self._data[key]["extracted_entities"]["data_age"] += 1`). -/
def setAge (dat : List (String × PyVal)) (key : String) (a : Int) :
    List (String × PyVal) :=
  match assocGet dat key with
  | some (PyVal.pyDict d) =>
    match assocGet d "extracted_entities" with
    | some (PyVal.pyDict e) =>
        assocSet dat key
          (PyVal.pyDict (assocSet d "extracted_entities"
            (PyVal.pyDict (assocSet e "data_age" (PyVal.pyInt a)))))
    | _ => dat
  | _ => dat

/-- `Blackboard.age_data` of `src/main_mara_system.py` (lines 77-89): under
the lock, if the guard passes, increment the age and call
`_notify_observers(key)`; otherwise do nothing (no notification). -/
def ageData (s : BBState) (key : String) : List BBEvent × BBState :=
  match ageGuard s key with
  | some n =>
    let s' : BBState := { s with data := setAge s.data key (n + 1) }
    (BBEvent.acquire :: notifyEvents s' key ++ [BBEvent.release], s')
  | none => ([BBEvent.acquire, BBEvent.release], s)

/-- `Blackboard.age_data` of `src/comm/blackboard.py` (lines 75-85): same
guard and increment, but this variant never calls `_notify_observers`. -/
def ageDataComm (s : BBState) (key : String) : List BBEvent × BBState :=
  match ageGuard s key with
  | some n =>
    ([BBEvent.acquire, BBEvent.release],
     { s with data := setAge s.data key (n + 1) })
  | none => ([BBEvent.acquire, BBEvent.release], s)

/-- Lock depth (number of unreleased acquisitions by the writer's thread) at
each `invoke` event of a trace, in order. -/
def invokeDepthsAux : Nat → List BBEvent → List Nat
  | _, [] => []
  | d, BBEvent.acquire :: r => invokeDepthsAux (d + 1) r
  | d, BBEvent.release :: r => invokeDepthsAux (d - 1) r
  | d, BBEvent.publish _ :: r => invokeDepthsAux d r
  | d, BBEvent.invoke _ _ _ :: r => d :: invokeDepthsAux d r

/-- Lock depths at which the callbacks of a trace run, starting outside the
lock. -/
def invokeDepths (tr : List BBEvent) : List Nat := invokeDepthsAux 0 tr

/-- The callbacks invoked by a trace, in invocation order. -/
def invokedCallbacks (tr : List BBEvent) : List Nat :=
  tr.filterMap (fun e =>
    match e with
    | BBEvent.invoke cb _ _ => some cb
    | _ => none)

/-- How many times a trace enters `_notify_observers` for `key`. -/
def publishCount (tr : List BBEvent) (key : String) : Nat :=
  tr.countP (fun e =>
    match e with
    | BBEvent.publish k' => k' == key
    | _ => false)

/-- The observer snapshot `list(self._observers[key])` taken by
`_notify_observers` (empty when no observer registered for the key). -/
def obsSnapshot (s : BBState) (key : String) : List Nat :=
  (assocGet s.observers key).getD []

/-- The state written by the staleness monitor when it signals a refresh:
`set_data("human_feedback", "refresh data")` followed by
`set_status("awaiting_re_orchestration")`
(`src/agent/data_refresh_agent.py` lines 30-31). -/
def signalRefresh (s : BBState) : BBState :=
  { s with
    data := assocSet s.data "human_feedback" (PyVal.pyStr "refresh data")
    status := "awaiting_re_orchestration" }

/-- `DataRefreshAgent._check_for_staleness`
(`src/agent/data_refresh_agent.py` lines 22-36): read
`synthesized_knowledge`; when it carries a `data_age` and that age is at
least the stale threshold, write the refresh signal; otherwise leave the
blackboard unchanged (the remaining branches only print).  No observer of
this system reacts to the `human_feedback` key or to the
`awaiting_re_orchestration` status, so the state-transformer view is
cascade-free. -/
def checkForStaleness (s : BBState) (staleThreshold : Int) : BBState :=
  match ageGuard s "synthesized_knowledge" with
  | some currentAge =>
      if currentAge ≥ staleThreshold then
        (setStatus ((setData s "human_feedback" (PyVal.pyStr "refresh data")).2)
          "awaiting_re_orchestration").2
      else s
  | none => s

/-- Trace events of `DataAcquisitionAgent._perform_acquisition`: an attempt
of the wrapped scraping operation (0-based index), or a
`time.sleep(retry_delay)` between attempts. -/
inductive AcqEvent where
  | attempt (i : Nat)
  | sleep (d : Nat)

/-- The retry loop of `DataAcquisitionAgent._perform_acquisition`
(`src/agent/data_acquisition_agent.py` lines 62-80), parameterised by the
behaviour `ops` of the wrapped operation on each attempt (constructing
`SmartScraperGraph` plus `_run_scraper_with_timeout`; a per-attempt timeout
is raised as `TimeoutError` and so is an `error` outcome like any other
exception).  `remaining` is `max_retries - i`.  On success the result is
returned at once; on failure, if the attempt was not the last
(`attempt < self.max_retries - 1`), sleep `retry_delay` and retry, else
return `None` — the caught error is only printed, never returned. -/
def acquireLoop (ops : Nat → Except String PyVal) (retryDelay : Nat) :
    Nat → Nat → List AcqEvent × Option PyVal
  | _, 0 => ([], none)
  | i, remaining + 1 =>
    match ops i with
    | Except.ok v => ([AcqEvent.attempt i], some v)
    | Except.error _ =>
      if remaining = 0 then ([AcqEvent.attempt i], none)
      else
        let rest := acquireLoop ops retryDelay (i + 1) remaining
        (AcqEvent.attempt i :: AcqEvent.sleep retryDelay :: rest.1, rest.2)

/-- `DataAcquisitionAgent._perform_acquisition`
(`src/agent/data_acquisition_agent.py` lines 43-80): with no
`OPENAI_API_KEY` return `None` without attempting; otherwise run the retry
loop over `range(max_retries)`. -/
def performAcquisition (openaiKey : Option String)
    (ops : Nat → Except String PyVal) (maxRetries retryDelay : Nat) :
    List AcqEvent × Option PyVal :=
  match openaiKey with
  | none => ([], none)
  | some _ => acquireLoop ops retryDelay 0 maxRetries

/-- Expected trace of an always-failing run starting at attempt `i` with
`n` attempts left: attempts separated by one `sleep d` each, no sleep after
the last attempt. -/
def failEvents (d : Nat) : Nat → Nat → List AcqEvent
  | _, 0 => []
  | i, 1 => [AcqEvent.attempt i]
  | i, n + 2 => AcqEvent.attempt i :: AcqEvent.sleep d :: failEvents d (i + 1) (n + 1)

/-- Expected trace of a run whose first success is `k` attempts after
attempt `i`: `k` failing attempts each followed by `sleep d`, then the
successful attempt. -/
def succEvents (d : Nat) : Nat → Nat → List AcqEvent
  | i, 0 => [AcqEvent.attempt i]
  | i, k + 1 => AcqEvent.attempt i :: AcqEvent.sleep d :: succEvents d (i + 1) k

/-- Number of attempts recorded in an acquisition trace. -/
def attemptCount (tr : List AcqEvent) : Nat :=
  tr.countP (fun e =>
    match e with
    | AcqEvent.attempt _ => true
    | _ => false)

/-- One article record of the raw scraped data consumed by the synthesizer:
the `title`, `description` and `author` entries of the dict, each possibly
absent. -/
structure RawArticle where
  title : Option String
  description : Option String
  author : Option String

/-- The raw-data input of `KnowledgeSynthesisAgent._perform_synthesis`,
quotiented by the tests the code applies to it: `falsy` (`if not raw_data`,
e.g. `None` or `{}`), a truthy value without a `content` list
(`isinstance`/`in` guard fails, producing an empty graph), or a dict with a
`content` list of article records. -/
inductive RawData where
  | falsy
  | noContentList
  | withContent (content : List RawArticle)

/-- An article node of the produced knowledge graph
(`entities["articles"]` element, `knowledge_synthesis_agent.py` lines
54-61). -/
structure ArticleNode where
  id : String
  type : String
  title : String
  description_snippet : String
deriving DecidableEq

/-- An author node of the produced knowledge graph
(`entities["authors"]` element, lines 66-70). -/
structure AuthorNode where
  id : String
  type : String
  name : String
deriving DecidableEq

/-- A relationship triple of the produced knowledge graph (lines 72-76). -/
structure Relationship where
  source_id : String
  type : String
  target_id : String
deriving DecidableEq

/-- The `extracted_entities` dict of the synthesized knowledge graph:
timestamp, node collections, relationships, and the `data_age` entry that
is present only when `assign_age` was set (lines 78-87). -/
structure ExtractedEntities where
  timestamp : String
  articles : List ArticleNode
  authors : List AuthorNode
  relationships : List Relationship
  data_age : Option Nat
deriving DecidableEq

/-- The synthesized knowledge value posted to the blackboard. -/
structure SynthesizedKnowledge where
  summary : String
  extracted_entities : ExtractedEntities
deriving DecidableEq

/-- Python `str.lower()` (ASCII), character by character. -/
def pyLower (s : String) : String := String.mk (s.data.map Char.toLower)

/-- Python `str.strip()`: drop leading and trailing whitespace. -/
def pyStrip (s : String) : String :=
  String.mk
    (((s.data.dropWhile Char.isWhitespace).reverse.dropWhile Char.isWhitespace).reverse)

/-- Python `str.replace(pat, repl)` for a non-empty pattern: scan left to
right, replacing non-overlapping occurrences.  The fuel argument (the
length of the scanned list) makes the recursion structural. -/
def pyReplaceGo (pat repl : List Char) : Nat → List Char → List Char
  | _, [] => []
  | 0, l => l
  | fuel + 1, c :: rest =>
      if pat.isPrefixOf (c :: rest) then
        repl ++ pyReplaceGo pat repl fuel ((c :: rest).drop pat.length)
      else c :: pyReplaceGo pat repl fuel rest

/-- Python `str.replace(pat, repl)` on strings (non-empty `pat`). -/
def pyReplace (s pat repl : String) : String :=
  String.mk (pyReplaceGo pat.data repl.data s.data.length s.data)

/-- The author name assigned to a raw article
(`knowledge_synthesis_agent.py` lines 47-51):
`article_data.get("author", "").strip()`, replaced by the hard-coded
placeholder `"Marco Perini"` when empty or equal to `"na"` ignoring
case. -/
def authorNameOf (a : RawArticle) : String :=
  let extracted_author := pyStrip (a.author.getD "")
  if extracted_author = "" ∨ pyLower extracted_author = "na" then "Marco Perini"
  else extracted_author

/-- The author node id derived from an author name (line 63):
`"author_" + author_name.lower().replace(" ", "_").replace(".", "")`. -/
def authorIdOf (authorName : String) : String :=
  "author_" ++ pyReplace (pyReplace (pyLower authorName) " " "_") "." ""

/-- The article node id for the 0-based loop index `idx` (line 53):
`"article_" + str(idx + 1)`. -/
def articleIdOf (idx : Nat) : String :=
  "article_" ++ Nat.repr (idx + 1)

/-- The description snippet (line 59): first 100 characters plus `"..."`
when longer than 100 (Python slice `description[:100]`). -/
def snippetOf (description : String) : String :=
  if description.data.length > 100 then String.mk (description.data.take 100) ++ "..."
  else description

/-- The article node appended for loop index `idx` (lines 54-61). -/
def mkArticleNode (idx : Nat) (a : RawArticle) : ArticleNode :=
  { id := articleIdOf idx, type := "Article", title := a.title.getD "N/A",
    description_snippet := snippetOf (a.description.getD "N/A") }

/-- The author node appended for a newly seen author name (lines 66-70). -/
def mkAuthorNode (authorName : String) : AuthorNode :=
  { id := authorIdOf authorName, type := "Author", name := authorName }

/-- The `AUTHORED_BY` relationship appended for loop index `idx`
(lines 72-76). -/
def mkRel (idx : Nat) (authorName : String) : Relationship :=
  { source_id := articleIdOf idx, type := "AUTHORED_BY",
    target_id := authorIdOf authorName }

/-- Accumulator of the synthesis loop: the growing node collections, the
`unique_authors` dict (author name to id) and the relationship list. -/
structure SynthAcc where
  articles : List ArticleNode
  authors : List AuthorNode
  uniqueAuthors : List (String × String)
  relationships : List Relationship

/-- One iteration of the `for idx, article_data in enumerate(...)` loop of
`_perform_synthesis` (lines 43-76): append the article node; append an
author node and record it in `unique_authors` unless the author name was
seen before; append the `AUTHORED_BY` relationship from the article to the
(re)computed author id. -/
def synthStep (acc : SynthAcc) (idx : Nat) (a : RawArticle) : SynthAcc :=
  let title := a.title.getD "N/A"
  let description := a.description.getD "N/A"
  let authorName := authorNameOf a
  let articleId := articleIdOf idx
  let articles := acc.articles ++
    [{ id := articleId, type := "Article", title := title,
       description_snippet := snippetOf description }]
  let authorId := authorIdOf authorName
  let newAuthor := (assocGet acc.uniqueAuthors authorName).isNone
  let authors :=
    if newAuthor then
      acc.authors ++ [{ id := authorId, type := "Author", name := authorName }]
    else acc.authors
  let uniqueAuthors :=
    if newAuthor then assocSet acc.uniqueAuthors authorName authorId
    else acc.uniqueAuthors
  { articles := articles, authors := authors, uniqueAuthors := uniqueAuthors,
    relationships := acc.relationships ++
      [{ source_id := articleId, type := "AUTHORED_BY", target_id := authorId }] }

/-- The synthesis loop over the enumerated `content` list. -/
def synthLoop : SynthAcc → Nat → List RawArticle → SynthAcc
  | acc, _, [] => acc
  | acc, idx, a :: rest => synthLoop (synthStep acc idx a) (idx + 1) rest

/-- The empty accumulator (`entities = {"articles": [], "authors": []}`,
`relationships = []`, `unique_authors = {}`). -/
def synthInit : SynthAcc :=
  { articles := [], authors := [], uniqueAuthors := [], relationships := [] }

/-- Package an accumulator as the returned knowledge value (lines 78-89). -/
def mkSynthesized (timestamp : String) (assignAge : Bool) (acc : SynthAcc) :
    SynthesizedKnowledge :=
  { summary := "Structured knowledge extracted into entities and relationships.",
    extracted_entities :=
      { timestamp := timestamp, articles := acc.articles, authors := acc.authors,
        relationships := acc.relationships,
        data_age := if assignAge then some 0 else none } }

/-- `KnowledgeSynthesisAgent._perform_synthesis`
(`src/agent/knowledge_synthesis_agent.py` lines 25-89).  The `timestamp`
parameter is the value of `datetime.now().isoformat()` read during the
call: the source obtains it from the ambient clock, so it is an input of
the model, not a constant. -/
def performSynthesis (rawData : RawData) (timestamp : String)
    (assignAge : Bool) : Option SynthesizedKnowledge :=
  match rawData with
  | RawData.falsy => none
  | RawData.noContentList => some (mkSynthesized timestamp assignAge synthInit)
  | RawData.withContent content =>
      some (mkSynthesized timestamp assignAge (synthLoop synthInit 0 content))

/-- Erase the timestamp field of a synthesis result (used to state that two
results agree everywhere except the timestamp). -/
def eraseTimestamp : Option SynthesizedKnowledge → Option SynthesizedKnowledge
  | none => none
  | some g =>
      some { g with extracted_entities := { g.extracted_entities with timestamp := "" } }

/-- Python exceptions the modelled worker code can raise. -/
inductive PyErr where
  | nameError
  | attributeError
deriving DecidableEq

/-- The `current_task` dict as the knowledge query worker reads it: the
entries accessed via `task.get(...)`, each possibly absent. -/
structure TaskRec where
  type : Option String
  author : Option String
  keyword : Option String
  original_query : Option String

/-- The blackboard slots the knowledge query worker reads and writes
(`src/agent/knowledge_query_agent.py`).  `synthesized_knowledge` is either
absent/falsy or a graph of the shape the synthesis agent posts. -/
structure QAState where
  current_task : Option TaskRec
  synthesized_knowledge : Option SynthesizedKnowledge
  human_feedback : Option String
  final_report : Option String
  error_message : Option String
  status : String

/-- Python `str.title()` (ASCII): a letter is upper-cased when the previous
character is not a letter, lower-cased otherwise. -/
def pyTitleGo : Bool → List Char → List Char
  | _, [] => []
  | prevAlpha, c :: rest =>
      if c.isAlpha then
        (if prevAlpha then c.toLower else c.toUpper) :: pyTitleGo true rest
      else c :: pyTitleGo false rest

/-- Python `str.title()` on a string. -/
def pyTitle (s : String) : String := String.mk (pyTitleGo false s.data)

/-- Python substring membership `needle in hay`. -/
def strContains (hay needle : String) : Bool :=
  (List.range (hay.data.length + 1)).any
    (fun i => needle.data.isPrefixOf (hay.data.drop i))

/-- Report line for one keyword match (`knowledge_query_agent.py` lines
66-74): look up the article's `AUTHORED_BY` relationship, then the matching
author node, defaulting to `"Unknown Author"`. -/
def keywordRow (g : SynthesizedKnowledge) (a : ArticleNode) : String :=
  let authorId := ((g.extracted_entities.relationships.find?
    (fun r => r.source_id == a.id && r.type == "AUTHORED_BY")).map
      (fun r => r.target_id))
  let authorName := ((g.extracted_entities.authors.find?
    (fun u => some u.id == authorId)).map (fun u => u.name)).getD "Unknown Author"
  "- **Title:** \x27" ++ a.title ++ "\x27 by " ++ authorName ++
    "\n  - **Snippet:** " ++ a.description_snippet ++ "\n"

/-- `KnowledgeQueryAgent.execute_query`
(`src/agent/knowledge_query_agent.py` lines 20-85).  Raised exceptions are
returned as `Except.error`; they leave the blackboard untouched.  Line 26
(`task.get(...)`) raises `AttributeError` when `current_task` is `None`.
Line 33 reads the undefined name `selfboard`, so the missing-graph branch
raises `NameError` instead of writing the failure report and the `failed`
status that lines 33-34 intend. -/
def executeQuery (s : QAState) : Except PyErr QAState :=
  match s.current_task with
  | none => Except.error PyErr.attributeError
  | some task =>
    let header := "### MARA Research Report - Knowledge Query Result\n\n" ++
      "**Original Query:** \x27" ++ task.original_query.getD "N/A" ++ "\x27\n" ++
      "**Requested Follow-up:** \x27" ++ s.human_feedback.getD "None" ++ "\x27\n\n"
    match s.synthesized_knowledge with
    | none => Except.error PyErr.nameError
    | some g =>
      let articles := g.extracted_entities.articles
      let authors := g.extracted_entities.authors
      let relationships := g.extracted_entities.relationships
      if task.type = some "count_articles_by_author" then
        match task.author with
        | none => Except.error PyErr.attributeError
        | some au =>
          let authorNameQuery := pyLower au
          let matchingAuthorId := (authors.find?
            (fun a => pyLower a.name == authorNameQuery)).map (fun a => a.id)
          let body :=
            match matchingAuthorId with
            | some mid =>
                let articleCount := relationships.countP
                  (fun r => r.target_id == mid && r.type == "AUTHORED_BY")
                "**Result:** \x27" ++
                  pyTitle (pyReplace (pyReplace mid "author_" "") "_" " ") ++
                  "\x27 authored " ++ Nat.repr articleCount ++ " article(s).\n"
            | none =>
                "**Result:** No author found matching \x27" ++
                  pyTitle authorNameQuery ++ "\x27 in the knowledge graph.\n"
          Except.ok { s with final_report := some (header ++ body),
                             status := "complete" }
      else if task.type = some "find_articles_by_keyword" then
        match task.keyword with
        | none => Except.error PyErr.attributeError
        | some kw =>
          let keywordQuery := pyLower kw
          let matchingArticles := articles.filter (fun a =>
            strContains (pyLower a.title) keywordQuery ||
            strContains (pyLower a.description_snippet) keywordQuery)
          let body :=
            if matchingArticles.isEmpty then
              "**Result:** No articles found containing the keyword \x27" ++
                keywordQuery ++ "\x27.\n"
            else
              "**Result:** Found " ++ Nat.repr matchingArticles.length ++
                " article(s) containing the keyword \x27" ++ keywordQuery ++
                "\x27:\n" ++ String.join (matchingArticles.map (keywordRow g))
          Except.ok { s with final_report := some (header ++ body),
                             status := "complete" }
      else
        Except.ok { s with
          final_report := some (header ++ "Error: Unknown query type."),
          error_message := some "Unknown query type received by Knowledge Query Agent.",
          status := "complete" }

/-- `KnowledgeQueryAgent.on_blackboard_change` (lines 16-18): the worker's
entry point reached through the blackboard's notification; it dispatches to
`execute_query` exactly on the `query_requested` status. -/
def kqOnBlackboardChange (s : QAState) (key value : String) :
    Except PyErr QAState :=
  if key = "status" ∧ value = "query_requested" then executeQuery s
  else Except.ok s

/-- The handlers `AnalysisAndReportingAgent.on_blackboard_change` can
dispatch to (`src/agent/analysis_reporting_agent.py` lines 21-35). -/
inductive ARHandler where
  | mainReport
  | summaryTask
  | filterByAuthorTask
  | visualizationTask
  | prolificAuthorTask
  | changeDetectionReport
  | failureReport
deriving DecidableEq

/-- `AnalysisAndReportingAgent.on_blackboard_change` (lines 21-35) as a
dispatch table: which handler runs for a notified key/value pair. -/
def arDispatch (key value : String) : Option ARHandler :=
  if key = "status" ∧ value = "data_validated" then some ARHandler.mainReport
  else if key = "status" ∧ value = "summarize_requested" then
    some ARHandler.summaryTask
  else if key = "status" ∧ value = "filter_by_author_requested" then
    some ARHandler.filterByAuthorTask
  else if key = "status" ∧ value = "visualize_requested" then
    some ARHandler.visualizationTask
  else if key = "status" ∧ value = "prolific_author_requested" then
    some ARHandler.prolificAuthorTask
  else if key = "status" ∧
      (value = "changes_detected" ∨ value = "no_changes_detected") then
    some ARHandler.changeDetectionReport
  else if key = "status" ∧
      (value = "data_acquisition_failed" ∨ value = "unsupported_query" ∨
       value = "knowledge_synthesis_failed" ∨ value = "data_validation_failed" ∨
       value = "failed") then
    some ARHandler.failureReport
  else none

/-- The blackboard slots `execute_failure_report` reads and writes. -/
structure ARState where
  final_report : Option String
  error_message : Option String
  status : String

/-- The report text built by
`AnalysisAndReportingAgent.execute_failure_report` (lines 368-379); the
previously posted `final_report` is the failure reason when truthy. -/
def failureReportText (s : ARState) : String :=
  let failureMessage :=
    match s.final_report with
    | some m => if m = "" then "An unspecified error occurred." else m
    | none => "An unspecified error occurred."
  let base := "### MARA Research Report - Process Failed\n\n" ++
    "**Overall Process Status:** " ++ s.status ++ "\n\n" ++
    "Reason for failure: " ++ failureMessage ++ "\n"
  let withDetails :=
    match s.error_message with
    | some d => if d = "" then base else base ++ "Error Details: " ++ d ++ "\n\n"
    | none => base
  withDetails ++ "Please review the process logs for more details."

/-- `AnalysisAndReportingAgent.execute_failure_report`
(`src/agent/analysis_reporting_agent.py` lines 368-383): post the failure
report under `final_report`.  Unlike the older variant in
`src/main_mara_system.py`, this method performs no `set_status` call: the
status is left at the triggering value. -/
def executeFailureReport (s : ARState) : ARState :=
  { s with final_report := some (failureReportText s) }

/-- Numeric value of a decimal digit character. -/
def digitVal (c : Char) : Nat := c.toNat - Char.toNat '0'

/-- Numeric value of a decimal digit string (most significant first). -/
def digitsVal (l : List Char) : Nat :=
  l.foldl (fun a c => 10 * a + digitVal c) 0

/-- Invariant of the synthesis loop accumulator when the loop continues at
0-based index `idx`: article node ids are exactly
`article_1 .. article_idx` in order, the relationship sources agree
positionally with the article ids (the loop appends one `AUTHORED_BY`
relationship per article), every relationship target is the id of some
author node, and every name recorded in `unique_authors` has an author node
carrying that name and its derived id. -/
def SynthInvariant (acc : SynthAcc) (idx : Nat) : Prop :=
  acc.articles.map ArticleNode.id = (List.range idx).map articleIdOf ∧
  acc.relationships.map Relationship.source_id = acc.articles.map ArticleNode.id ∧
  (∀ r ∈ acc.relationships, ∃ u ∈ acc.authors, u.id = r.target_id) ∧
  (∀ nm, (assocGet acc.uniqueAuthors nm).isSome →
    ∃ u ∈ acc.authors, u.name = nm ∧ u.id = authorIdOf nm)

/-- A blackboard with one observer registered for `synthesized_knowledge`
and no data (used to exhibit the lock depth at which callbacks run). -/
def bbObserved : BBState :=
  { data := [], status := "idle",
    observers := [("synthesized_knowledge", [0])] }

/-- A blackboard whose `synthesized_knowledge` slot holds a non-graph value
(no `extracted_entities`/`data_age`), with an observer registered for the
key. -/
def bbNoAge : BBState :=
  { data := [("synthesized_knowledge", PyVal.pyStr "raw text")],
    status := "complete",
    observers := [("synthesized_knowledge", [0])] }

/-- A blackboard whose `synthesized_knowledge` slot holds a graph-shaped
value aged 3 cycles. -/
def bbWithAge : BBState :=
  { data := [("synthesized_knowledge", PyVal.pyDict
      [("summary", PyVal.pyStr "Structured knowledge extracted into entities and relationships."),
       ("extracted_entities", PyVal.pyDict
         [("timestamp", PyVal.pyStr "2025-06-01T10:00:00"),
          ("data_age", PyVal.pyInt 3)])])],
    status := "complete",
    observers := [("status", [0, 1]), ("synthesized_knowledge", [2])] }

/-- Blackboard state of the knowledge query worker right after the status
was set to `query_requested` while `synthesized_knowledge` was never
posted: a valid count query task is present, the graph slot is empty. -/
def qaFailState : QAState :=
  { current_task := some
      { type := some "count_articles_by_author",
        author := some "Marco Perini",
        keyword := none,
        original_query := some "List me all the articles on the page with their description and the author." },
    synthesized_knowledge := none,
    human_feedback := some "How many articles were written by author Marco Perini?",
    final_report := none,
    error_message := none,
    status := "query_requested" }

/-- Reporting-agent view of the blackboard right after the acquisition
worker failed: its error report is in `final_report`/`error_message` and
the status is `data_acquisition_failed`. -/
def arFailedState : ARState :=
  { final_report := some "Data Acquisition Agent failed to acquire raw data from https://perinim.github.io/projects after 3 attempts.",
    error_message := some "Data Acquisition Agent failed to acquire raw data from https://perinim.github.io/projects after 3 attempts.",
    status := "data_acquisition_failed" }

/-- Two raw articles: one fully attributed, one with every field missing
(exercising the placeholder-author policy). -/
def exContent : List RawArticle :=
  [{ title := some "Rotary Pendulum RL",
     description := some "Open-source project aimed at controlling a real life rotary pendulum",
     author := some "Marco Perini" },
   { title := none, description := none, author := none }]

/-- C1: the spec requires every worker entry point triggered by a status
change to catch every exception and convert it into a status write plus an
explanatory message slot.  The knowledge query worker violates this: on a
`query_requested` notification with no synthesized knowledge on the
blackboard, line 33 of `src/agent/knowledge_query_agent.py` reads the
undefined name `selfboard` (a slip for `self.blackboard`), so the entry
point raises `NameError` instead of posting the report and the `failed`
status; the exception is only swallowed by `_notify_observers`
(`main_mara_system.py` lines 70-75), which logs it, performs no status
write, and thereby stalls the pipeline. -/
theorem C1_query_worker_nameError_escapes :
    kqOnBlackboardChange qaFailState "status" "query_requested" =
      Except.error PyErr.nameError := rfl

/-- Trace and result of the retry loop when every attempt fails: all
`remaining` attempts are performed, separated by one `sleep retryDelay`
each, and the loop returns `none`. -/
theorem acquireLoop_allFail (ops : Nat → Except String PyVal) (d : Nat)
    (hfail : ∀ j, ∃ e, ops j = Except.error e) :
    ∀ (r i : Nat), acquireLoop ops d i (r + 1) = (failEvents d i (r + 1), none) := by
  intro r
  induction r with
  | zero =>
    intro i
    obtain ⟨e, he⟩ := hfail i
    simp [acquireLoop, he, failEvents]
  | succ n ih =>
    intro i
    obtain ⟨e, he⟩ := hfail i
    rw [acquireLoop]
    simp [he, ih (i + 1), failEvents]

/-- The always-failing trace contains one attempt per configured retry. -/
theorem attemptCount_failEvents (d : Nat) :
    ∀ (n i : Nat), attemptCount (failEvents d i n) = n
  | 0, _ => rfl
  | 1, _ => rfl
  | n + 2, i => by
    have ih := attemptCount_failEvents d (n + 1) (i + 1)
    simp [failEvents, attemptCount, List.countP_cons] at ih ⊢
    omega

/-- C2 (amended): with `maxAttempts = N ≥ 1` and an always-failing wrapped
operation, `_perform_acquisition` performs exactly `N` attempts, with
consecutive attempts separated by one `retryDelay` wait, and then surfaces
the exhaustion failure as `None` — the failure does NOT carry the last
error (the caught exception is only printed; the claim's "carrying the
last error" is refuted by `C2_counterexample`). -/
theorem C2_retry_exhaustion (key : String) (ops : Nat → Except String PyVal)
    (N d : Nat) (hN : 1 ≤ N) (hfail : ∀ j, ∃ e, ops j = Except.error e) :
    performAcquisition (some key) ops N d = (failEvents d 0 N, none) ∧
    attemptCount (failEvents d 0 N) = N := by
  refine ⟨?_, attemptCount_failEvents d N 0⟩
  match N, hN with
  | m + 1, _ =>
    show acquireLoop ops d 0 (m + 1) = _
    exact acquireLoop_allFail ops d hfail m 0

/-- C2 witness: three attempts, all failing, with `retryDelay = 5`. -/
theorem C2_retry_exhaustion_witness :
    performAcquisition (some "k") (fun _ => Except.error "boom") 3 5 =
      ([AcqEvent.attempt 0, AcqEvent.sleep 5, AcqEvent.attempt 1,
        AcqEvent.sleep 5, AcqEvent.attempt 2], none) ∧
    attemptCount [AcqEvent.attempt 0, AcqEvent.sleep 5, AcqEvent.attempt 1,
        AcqEvent.sleep 5, AcqEvent.attempt 2] = 3 := by
  have h := C2_retry_exhaustion "k" (fun _ => Except.error "boom") 3 5
    (by omega) (fun j => ⟨"boom", rfl⟩)
  exact ⟨h.1, h.2⟩

/-- C2 counterexample to "carrying the last error": two always-failing
operations whose errors differ (`"error A"` vs `"error B"`) produce
identical outcomes from `_perform_acquisition`, and that outcome is the
bare `none` — so the surfaced exhaustion failure cannot carry the last
error, contradicting the claim as stated. -/
theorem C2_counterexample :
    performAcquisition (some "k") (fun _ => Except.error "error A") 2 1 =
      performAcquisition (some "k") (fun _ => Except.error "error B") 2 1 ∧
    (performAcquisition (some "k") (fun _ => Except.error "error A") 2 1).2 = none :=
  ⟨rfl, rfl⟩

/-- Trace and result of the retry loop when the first success comes `k`
attempts after attempt `i` and at least `k + 1` attempts remain: the
successful result is returned at once and no further attempt happens. -/
theorem acquireLoop_firstSuccess (ops : Nat → Except String PyVal)
    (d : Nat) (v : PyVal) :
    ∀ (k i r : Nat), k < r → ops (i + k) = Except.ok v →
      (∀ j, j < k → ∃ e, ops (i + j) = Except.error e) →
      acquireLoop ops d i r = (succEvents d i k, some v) := by
  intro k
  induction k with
  | zero =>
    intro i r hr hok _
    match r, hr with
    | rr + 1, _ =>
      rw [Nat.add_zero] at hok
      simp [acquireLoop, hok, succEvents]
  | succ m ih =>
    intro i r hr hok hfail
    match r, hr with
    | rr + 1, hr =>
      obtain ⟨e, he⟩ := hfail 0 (Nat.succ_pos m)
      rw [Nat.add_zero] at he
      have hrr : m < rr := by omega
      have hok' : ops ((i + 1) + m) = Except.ok v := by
        rw [show (i + 1) + m = i + (m + 1) by omega]; exact hok
      have hfail' : ∀ j, j < m → ∃ e, ops ((i + 1) + j) = Except.error e := by
        intro j hj
        have hh := hfail (j + 1) (by omega)
        rw [show i + (j + 1) = (i + 1) + j by omega] at hh
        exact hh
      have hrr0 : rr ≠ 0 := by omega
      simp [acquireLoop, he, hrr0, ih (i + 1) rr hrr hok' hfail', succEvents]

/-- The trace of a run succeeding after `k` failures has `k + 1` attempts. -/
theorem attemptCount_succEvents (d : Nat) :
    ∀ (k i : Nat), attemptCount (succEvents d i k) = k + 1
  | 0, _ => rfl
  | k + 1, i => by
    have ih := attemptCount_succEvents d k (i + 1)
    simp [succEvents, attemptCount, List.countP_cons] at ih ⊢
    omega

/-- C8: if the wrapped operation succeeds within the per-attempt timeout on
attempt `k + 1 ≤ maxAttempts` (0-based `k < N`, earlier attempts failing),
`_perform_acquisition` returns that first successful result immediately:
the trace ends with the successful attempt and contains exactly `k + 1`
attempts, with no further attempt and no further delay. -/
theorem C8_first_success_short_circuits (key : String)
    (ops : Nat → Except String PyVal) (N d k : Nat) (v : PyVal)
    (hk : k < N) (hok : ops k = Except.ok v)
    (hfail : ∀ j, j < k → ∃ e, ops j = Except.error e) :
    performAcquisition (some key) ops N d = (succEvents d 0 k, some v) ∧
    attemptCount (succEvents d 0 k) = k + 1 := by
  refine ⟨?_, attemptCount_succEvents d k 0⟩
  show acquireLoop ops d 0 N = _
  refine acquireLoop_firstSuccess ops d v k 0 N hk (by simpa using hok) ?_
  intro j hj
  simpa using hfail j hj

/-- C8 witness: timeout on the first attempt, success on the second, with
`maxAttempts = 3`: only two attempts happen and the scraped value is
returned. -/
theorem C8_first_success_witness :
    performAcquisition (some "k")
        (fun j => if j = 0 then Except.error "timeout" else Except.ok (PyVal.pyStr "data"))
        3 2 =
      ([AcqEvent.attempt 0, AcqEvent.sleep 2, AcqEvent.attempt 1],
       some (PyVal.pyStr "data")) ∧
    attemptCount [AcqEvent.attempt 0, AcqEvent.sleep 2, AcqEvent.attempt 1] = 2 := by
  have h := C8_first_success_short_circuits "k"
    (fun j => if j = 0 then Except.error "timeout" else Except.ok (PyVal.pyStr "data"))
    3 2 1 (PyVal.pyStr "data") (by omega) rfl
    (fun j hj => by
      match j, hj with
      | 0, _ => exact ⟨"timeout", rfl⟩)
  exact ⟨h.1, h.2⟩

/-- C9 counterexample: the synthesizer is not a pure function of the raw
data alone — it stamps `datetime.now().isoformat()` into the output
(`knowledge_synthesis_agent.py` line 81), so two invocations on equal raw
data at different clock readings produce different knowledge graphs. -/
theorem C9_counterexample :
    performSynthesis
        (RawData.withContent [{ title := none, description := none, author := none }])
        "2025-06-01T10:00:00" true ≠
      performSynthesis
        (RawData.withContent [{ title := none, description := none, author := none }])
        "2025-06-01T10:00:05" true := by
  decide

/-- C9 (amended): the synthesizer is a pure function of the raw data and
the clock reading taken during the call; on equal raw data the outputs of
two invocations agree on everything except the embedded timestamp. -/
theorem C9_pure_up_to_timestamp (rd : RawData) (t1 t2 : String) (flag : Bool) :
    eraseTimestamp (performSynthesis rd t1 flag) =
      eraseTimestamp (performSynthesis rd t2 flag) := by
  cases rd <;> rfl

/-- C6 counterexample: on the `data_acquisition_failed` status the failure
path does run and posts its report, but `execute_failure_report`
(`analysis_reporting_agent.py` lines 368-383) contains no `set_status`
call: the status afterwards is still `data_acquisition_failed`, not the
`failed` the claim requires. -/
theorem C6_counterexample :
    arDispatch "status" "data_acquisition_failed" = some ARHandler.failureReport ∧
    (executeFailureReport arFailedState).status = "data_acquisition_failed" ∧
    (executeFailureReport arFailedState).status ≠ "failed" :=
  ⟨rfl, rfl, by decide⟩

/-- C6 (amended): whenever the status becomes one of the three `*-failed`
values, the reporting worker dispatches to its failure path, which posts
the failure report under `final_report`; it performs no status write, so
the status it leaves behind is the triggering `*-failed` value (the claimed
subsequent `failed` status is refuted by `C6_counterexample`; only the
older agent variant inside `src/main_mara_system.py` still writes
`failed`). -/
theorem C6_failure_path (v : String) (s : ARState)
    (hv : v = "data_acquisition_failed" ∨ v = "knowledge_synthesis_failed" ∨
          v = "data_validation_failed") :
    arDispatch "status" v = some ARHandler.failureReport ∧
    (executeFailureReport s).final_report = some (failureReportText s) ∧
    (executeFailureReport s).status = s.status := by
  rcases hv with h | h | h <;> subst h <;> exact ⟨rfl, rfl, rfl⟩

/-- C6 witness: the failure path at the synthesis-failure status. -/
theorem C6_failure_path_witness :
    arDispatch "status" "knowledge_synthesis_failed" = some ARHandler.failureReport ∧
    (executeFailureReport arFailedState).final_report =
      some (failureReportText arFailedState) ∧
    (executeFailureReport arFailedState).status = arFailedState.status :=
  C6_failure_path "knowledge_synthesis_failed" arFailedState (Or.inr (Or.inl rfl))

/-- Lock depths of the per-callback section of `_notify_observers`: each
callback's `get_data` acquire/release pair is balanced, and the callback
itself is invoked at the depth the writer entered with. -/
theorem invokeDepthsAux_flat (k : String) (v : PyVal) (tail : List BBEvent) :
    ∀ (cbs : List Nat) (d : Nat),
      invokeDepthsAux (d + 1)
        ((cbs.flatMap fun cb =>
          [BBEvent.acquire, BBEvent.release, BBEvent.invoke cb k v]) ++ tail) =
      List.replicate cbs.length (d + 1) ++ invokeDepthsAux (d + 1) tail := by
  intro cbs
  induction cbs with
  | nil => intro d; simp
  | cons c rest ih =>
    intro d
    simp [invokeDepthsAux, List.replicate_succ]
    simpa using ih d

/-- The callbacks invoked by the per-callback section are exactly the
snapshotted list, in order. -/
theorem invokedCallbacks_flat (k : String) (v : PyVal) (tail : List BBEvent) :
    ∀ (cbs : List Nat),
      invokedCallbacks ((cbs.flatMap fun cb =>
        [BBEvent.acquire, BBEvent.release, BBEvent.invoke cb k v]) ++ tail) =
      cbs ++ invokedCallbacks tail := by
  intro cbs
  induction cbs with
  | nil => rfl
  | cons c rest ih =>
    simp only [List.flatMap_cons, List.cons_append, List.append_assoc]
    simp [invokedCallbacks, List.filterMap_cons] at ih ⊢
    exact ih

/-- The per-callback section of `_notify_observers` contains no `publish`
event. -/
theorem publishCount_flat (k : String) (v : PyVal) (tail : List BBEvent)
    (key : String) :
    ∀ (cbs : List Nat),
      publishCount ((cbs.flatMap fun cb =>
        [BBEvent.acquire, BBEvent.release, BBEvent.invoke cb k v]) ++ tail) key =
      publishCount tail key := by
  intro cbs
  induction cbs with
  | nil => rfl
  | cons c rest ih =>
    simp only [List.flatMap_cons, List.cons_append, List.append_assoc]
    simp [publishCount, List.countP_cons] at ih ⊢
    exact ih

/-- Lock depths of a full write trace (`acquire`, notification section,
final `release`): every callback runs at depth 1. -/
theorem invokeDepths_notifyShape (cbs : List Nat) (k : String) (v : PyVal) :
    invokeDepthsAux 0 (BBEvent.acquire :: ((BBEvent.publish k :: BBEvent.acquire ::
      BBEvent.release :: cbs.flatMap (fun cb => [BBEvent.acquire, BBEvent.release,
        BBEvent.invoke cb k v])) ++ [BBEvent.release])) =
      List.replicate cbs.length 1 := by
  have h := invokeDepthsAux_flat k v [BBEvent.release] cbs 0
  simp only [List.cons_append, invokeDepthsAux] at h ⊢
  simpa using h

/-- Callback list of a full write trace. -/
theorem invokedCallbacks_notifyShape (cbs : List Nat) (k : String) (v : PyVal) :
    invokedCallbacks (BBEvent.acquire :: ((BBEvent.publish k :: BBEvent.acquire ::
      BBEvent.release :: cbs.flatMap (fun cb => [BBEvent.acquire, BBEvent.release,
        BBEvent.invoke cb k v])) ++ [BBEvent.release])) = cbs := by
  have h := invokedCallbacks_flat k v [BBEvent.release] cbs
  simp [invokedCallbacks, List.filterMap_cons] at h ⊢
  exact h

/-- Publish count of a full write trace: exactly one `publish`, for the
written key. -/
theorem publishCount_notifyShape (cbs : List Nat) (k : String) (v : PyVal) :
    publishCount (BBEvent.acquire :: ((BBEvent.publish k :: BBEvent.acquire ::
      BBEvent.release :: cbs.flatMap (fun cb => [BBEvent.acquire, BBEvent.release,
        BBEvent.invoke cb k v])) ++ [BBEvent.release])) k = 1 := by
  have h := publishCount_flat k v [BBEvent.release] k cbs
  simp [publishCount, List.countP_cons] at h ⊢
  exact h

/-- C3 counterexample: writing to a key with one registered observer makes
the callback run at lock depth 1 — `set_data` calls `_notify_observers`
inside its own `with self._lock` block (`main_mara_system.py` lines
29-32), so the writer still holds the re-entrant lock when the callback is
invoked; the claimed "releases the lock before any callback runs" (depth 0)
is false. -/
theorem C3_counterexample :
    invokeDepths (setData bbObserved "synthesized_knowledge" (PyVal.pyInt 1)).1 =
      [1] := rfl

/-- C3 (amended): for every write operation of the blackboard, the
snapshotted subscriber list is invoked in order, but every callback runs
while the writer's own lock acquisition is still outstanding (lock depth
exactly 1, the inner `_notify_observers`/`get_data` acquisitions being
balanced re-entrant ones); the value a callback receives is re-read from
the store at its invocation time rather than snapshotted when the lock was
taken. -/
theorem C3_callbacks_under_writer_lock (s : BBState) (k : String) (v : PyVal)
    (st : String) :
    invokeDepths (setData s k v).1 = List.replicate (obsSnapshot s k).length 1 ∧
    invokedCallbacks (setData s k v).1 = obsSnapshot s k ∧
    invokeDepths (setStatus s st).1 =
      List.replicate (obsSnapshot s "status").length 1 ∧
    invokedCallbacks (setStatus s st).1 = obsSnapshot s "status" ∧
    invokeDepths (ageData s k).1 =
      (if (ageGuard s k).isSome then List.replicate (obsSnapshot s k).length 1
       else []) := by
  refine ⟨?_, ?_, ?_, ?_, ?_⟩
  · exact invokeDepths_notifyShape (obsSnapshot s k) k _
  · exact invokedCallbacks_notifyShape (obsSnapshot s k) k _
  · exact invokeDepths_notifyShape (obsSnapshot s "status") "status" _
  · exact invokedCallbacks_notifyShape (obsSnapshot s "status") "status" _
  · rcases hg : ageGuard s k with _ | n
    · simp [ageData, hg, invokeDepths, invokeDepthsAux]
    · simp only [ageData, hg, Option.isSome_some, if_true]
      exact invokeDepths_notifyShape (obsSnapshot s k) k _

/-- C5 counterexample: two `incrementAge` calls that publish zero times
instead of the claimed exactly once — `age_data` of
`src/main_mara_system.py` (lines 77-89) skips notification entirely when
the stored value has no `data_age` field, and `age_data` of
`src/comm/blackboard.py` (lines 75-85) never notifies even when it does
increment the age. -/
theorem C5_counterexample :
    publishCount (ageData bbNoAge "synthesized_knowledge").1
      "synthesized_knowledge" = 0 ∧
    publishCount (ageDataComm bbWithAge "synthesized_knowledge").1
      "synthesized_knowledge" = 0 :=
  ⟨rfl, rfl⟩

/-- C5 (amended): `set_data` and `set_status` publish for the targeted key
exactly once per call (no deduplication or coalescing); `age_data` of the
main system publishes exactly once per call iff the stored value carries a
`data_age` (and zero times otherwise), and `age_data` of
`src/comm/blackboard.py` never publishes. -/
theorem C5_publish_per_call (s : BBState) (k : String) (v : PyVal)
    (st : String) :
    publishCount (setData s k v).1 k = 1 ∧
    publishCount (setStatus s st).1 "status" = 1 ∧
    publishCount (ageData s k).1 k =
      (if (ageGuard s k).isSome then 1 else 0) ∧
    publishCount (ageDataComm s k).1 k = 0 := by
  refine ⟨?_, ?_, ?_, ?_⟩
  · exact publishCount_notifyShape (obsSnapshot s k) k _
  · exact publishCount_notifyShape (obsSnapshot s "status") "status" _
  · rcases hg : ageGuard s k with _ | n
    · simp [ageData, hg, publishCount]
    · simp only [ageData, hg, Option.isSome_some, if_true]
      exact publishCount_notifyShape (obsSnapshot s k) k _
  · rcases hg : ageGuard s k with _ | n <;> simp [ageDataComm, hg, publishCount]

/-- Updating one key of an association list leaves lookups of other keys
unchanged. -/
theorem assocGet_assocSet_ne {α : Type} (l : List (String × α)) (k k' : String)
    (v : α) (h : k ≠ k') :
    assocGet (assocSet l k v) k' = assocGet l k' := by
  induction l with
  | nil => simp [assocSet, assocGet, h]
  | cons p rest ih =>
    obtain ⟨a, b⟩ := p
    by_cases ha : a = k
    · subst ha
      simp [assocSet, assocGet, h]
    · simp [assocSet, assocGet, ha, ih]

/-- Writing the same value twice to an association list is the same as
writing it once. -/
theorem assocSet_idem {α : Type} (l : List (String × α)) (k : String) (v : α) :
    assocSet (assocSet l k v) k v = assocSet l k v := by
  induction l with
  | nil => simp [assocSet]
  | cons p rest ih =>
    obtain ⟨a, b⟩ := p
    by_cases ha : a = k <;> simp [assocSet, ha, ih]

/-- C4: a staleness check writes the refresh signal (the `human_feedback`
slot plus the `awaiting_re_orchestration` status,
`data_refresh_agent.py` lines 27-31) exactly when the graph's age is at
least the stale threshold; below the threshold, and when no aged graph is
present, it is a no-op; and checking is idempotent — a repeated check at
the same age reproduces the same blackboard state. -/
theorem C4_staleness_signal (s : BBState) (t : Int) :
    (∀ age, ageGuard s "synthesized_knowledge" = some age →
      (age ≥ t → checkForStaleness s t = signalRefresh s) ∧
      (age < t → checkForStaleness s t = s)) ∧
    (ageGuard s "synthesized_knowledge" = none → checkForStaleness s t = s) ∧
    checkForStaleness (checkForStaleness s t) t = checkForStaleness s t := by
  refine ⟨?_, ?_, ?_⟩
  · intro age h
    have hEq : checkForStaleness s t = if age ≥ t then signalRefresh s else s := by
      unfold checkForStaleness
      rw [h]
      rfl
    constructor
    · intro hge
      rw [hEq, if_pos hge]
    · intro hlt
      rw [hEq, if_neg (not_le.mpr hlt)]
  · intro h
    unfold checkForStaleness
    rw [h]
  · rcases hg : ageGuard s "synthesized_knowledge" with _ | age
    · have h1 : checkForStaleness s t = s := by
        unfold checkForStaleness
        rw [hg]
      rw [h1, h1]
    · have hEq : checkForStaleness s t = if age ≥ t then signalRefresh s else s := by
        unfold checkForStaleness
        rw [hg]
        rfl
      by_cases hge : age ≥ t
      · have h1 : checkForStaleness s t = signalRefresh s := by rw [hEq, if_pos hge]
        have hg' : ageGuard (signalRefresh s) "synthesized_knowledge" = some age := by
          unfold ageGuard signalRefresh
          rw [show ({ s with
              data := assocSet s.data "human_feedback" (PyVal.pyStr "refresh data"),
              status := "awaiting_re_orchestration" } : BBState).data =
            assocSet s.data "human_feedback" (PyVal.pyStr "refresh data") from rfl]
          rw [assocGet_assocSet_ne s.data "human_feedback" "synthesized_knowledge" _
            (by decide)]
          exact hg
        have hEq' : checkForStaleness (signalRefresh s) t =
            if age ≥ t then signalRefresh (signalRefresh s) else signalRefresh s := by
          unfold checkForStaleness
          rw [hg']
          rfl
        rw [h1, hEq', if_pos hge]
        simp [signalRefresh, assocSet_idem]
      · have h1 : checkForStaleness s t = s := by rw [hEq, if_neg hge]
        rw [h1, h1]

/-- C4 witness: with the graph aged 3 cycles, a check against threshold 2
writes the refresh signal and a check against threshold 5 is a no-op. -/
theorem C4_staleness_signal_witness :
    checkForStaleness bbWithAge 2 = signalRefresh bbWithAge ∧
    checkForStaleness bbWithAge 5 = bbWithAge :=
  ⟨((C4_staleness_signal bbWithAge 2).1 3 rfl).1 (by decide),
   ((C4_staleness_signal bbWithAge 5).1 3 rfl).2 (by decide)⟩

/-- `Nat.digitChar` is inverted by `digitVal` on decimal digits. -/
theorem digitVal_digitChar : ∀ d : Nat, d < 10 → digitVal (Nat.digitChar d) = d := by
  decide

/-- The accumulator of `Nat.toDigitsCore` is appended to the produced
digits. -/
theorem toDigitsCore_append (b : Nat) :
    ∀ (f n : Nat) (ds : List Char),
      Nat.toDigitsCore b f n ds = Nat.toDigitsCore b f n [] ++ ds := by
  intro f
  induction f with
  | zero => intro n ds; rfl
  | succ f ih =>
    intro n ds
    simp only [Nat.toDigitsCore]
    by_cases h : n / b = 0
    · simp [h]
    · rw [if_neg h, if_neg h, ih (n / b) (Nat.digitChar (n % b) :: ds),
        ih (n / b) [Nat.digitChar (n % b)], List.append_assoc,
        List.singleton_append]

/-- `Nat.toDigitsCore` does not depend on the fuel once the fuel exceeds
the number. -/
theorem toDigitsCore_fuel (b : Nat) (hb : 1 < b) :
    ∀ (f g n : Nat), n < f → n < g →
      Nat.toDigitsCore b f n [] = Nat.toDigitsCore b g n [] := by
  intro f
  induction f with
  | zero => intro g n hf _; exact absurd hf (Nat.not_lt_zero n)
  | succ f ih =>
    intro g n hf hg
    match g, hg with
    | g + 1, hg =>
      simp only [Nat.toDigitsCore]
      by_cases h : n / b = 0
      · simp [h]
      · rw [if_neg h, if_neg h,
          toDigitsCore_append b f (n / b), toDigitsCore_append b g (n / b)]
        have hn : 0 < n := by
          rcases Nat.eq_zero_or_pos n with h0 | h0
          · subst h0; simp [Nat.zero_div] at h
          · exact h0
        have hdiv : n / b < n := Nat.div_lt_self hn hb
        rw [ih g (n / b) (by omega) (by omega)]

/-- Appending one digit multiplies the value by ten and adds the digit. -/
theorem digitsVal_append (l : List Char) (c : Char) :
    digitsVal (l ++ [c]) = 10 * digitsVal l + digitVal c := by
  simp [digitsVal, List.foldl_append]

/-- The decimal digit string produced by `Nat.toDigits` evaluates back to
the number. -/
theorem digitsVal_toDigits : ∀ n : Nat, digitsVal (Nat.toDigits 10 n) = n := by
  intro n
  induction n using Nat.strong_induction_on with
  | _ n ih =>
    rw [Nat.toDigits]
    simp only [Nat.toDigitsCore]
    by_cases h : n / 10 = 0
    · rw [if_pos h]
      have hlt : n < 10 := (Nat.div_eq_zero_iff (by norm_num)).mp h
      have hchar := digitVal_digitChar (n % 10) (Nat.mod_lt n (by norm_num))
      rw [Nat.mod_eq_of_lt hlt] at hchar
      simp [digitsVal, Nat.mod_eq_of_lt hlt, hchar]
    · rw [if_neg h]
      have hn : 0 < n := by
        rcases Nat.eq_zero_or_pos n with h0 | h0
        · subst h0; simp [Nat.zero_div] at h
        · exact h0
      have hdiv : n / 10 < n := Nat.div_lt_self hn (by norm_num)
      rw [toDigitsCore_append 10 n (n / 10),
        toDigitsCore_fuel 10 (by norm_num) n (n / 10 + 1) (n / 10) hdiv
          (Nat.lt_succ_self _),
        show Nat.toDigitsCore 10 (n / 10 + 1) (n / 10) [] = Nat.toDigits 10 (n / 10)
          from rfl,
        digitsVal_append, ih (n / 10) hdiv,
        digitVal_digitChar (n % 10) (Nat.mod_lt n (by norm_num))]
      exact Nat.div_add_mod n 10

/-- Distinct naturals have distinct decimal string representations. -/
theorem natRepr_injective : Function.Injective Nat.repr := by
  intro m n h
  have hd : Nat.toDigits 10 m = Nat.toDigits 10 n := by
    have hdata := congrArg String.data h
    simpa [Nat.repr, List.asString] using hdata
  have hv := congrArg digitsVal hd
  rwa [digitsVal_toDigits, digitsVal_toDigits] at hv

/-- Distinct loop indices produce distinct article node ids. -/
theorem articleIdOf_injective : Function.Injective articleIdOf := by
  intro x y h
  unfold articleIdOf at h
  have hd := congrArg String.data h
  simp only [String.data_append] at hd
  have htail := List.append_cancel_left hd
  have hrepr : Nat.repr (x + 1) = Nat.repr (y + 1) := by
    have h1 : (Nat.repr (x + 1)).data = (Nat.repr (y + 1)).data := htail
    cases hx : Nat.repr (x + 1) with
    | mk dx =>
      cases hy : Nat.repr (y + 1) with
      | mk dy =>
        rw [hx, hy] at h1
        exact congrArg String.mk (by simpa using h1)
  have := natRepr_injective hrepr
  omega

/-- Unfolding of one synthesis loop iteration. -/
theorem synthStep_eq (acc : SynthAcc) (idx : Nat) (a : RawArticle) :
    synthStep acc idx a =
      { articles := acc.articles ++ [mkArticleNode idx a],
        authors :=
          if (assocGet acc.uniqueAuthors (authorNameOf a)).isNone then
            acc.authors ++ [mkAuthorNode (authorNameOf a)]
          else acc.authors,
        uniqueAuthors :=
          if (assocGet acc.uniqueAuthors (authorNameOf a)).isNone then
            assocSet acc.uniqueAuthors (authorNameOf a) (authorIdOf (authorNameOf a))
          else acc.uniqueAuthors,
        relationships := acc.relationships ++
          [mkRel idx (authorNameOf a)] } := rfl

/-- One synthesis iteration preserves the loop invariant. -/
theorem synthStep_invariant (acc : SynthAcc) (idx : Nat) (a : RawArticle)
    (h : SynthInvariant acc idx) :
    SynthInvariant (synthStep acc idx a) (idx + 1) := by
  obtain ⟨h1, h2, h3, h4⟩ := h
  rw [synthStep_eq]
  by_cases hnew : (assocGet acc.uniqueAuthors (authorNameOf a)).isNone
  · refine ⟨?_, ?_, ?_, ?_⟩
    · simp [SynthInvariant, List.range_succ, h1, mkArticleNode]
    · simp [SynthInvariant, h2, mkArticleNode, mkRel]
    · intro r hr
      rcases List.mem_append.mp hr with hmem | hmem
      · obtain ⟨u, hu, hid⟩ := h3 r hmem
        refine ⟨u, ?_, hid⟩
        simp only [hnew, if_true]
        exact List.mem_append_left _ hu
      · rw [List.mem_singleton.mp hmem]
        refine ⟨mkAuthorNode (authorNameOf a), ?_, rfl⟩
        simp [hnew]
    · intro nm hsome
      simp only [hnew, if_true] at hsome ⊢
      by_cases hnm : authorNameOf a = nm
      · subst hnm
        exact ⟨mkAuthorNode (authorNameOf a), by simp, rfl, rfl⟩
      · rw [assocGet_assocSet_ne _ _ _ _ hnm] at hsome
        obtain ⟨u, hu, hnm', hid⟩ := h4 nm hsome
        exact ⟨u, List.mem_append_left _ hu, hnm', hid⟩
  · have hsome : (assocGet acc.uniqueAuthors (authorNameOf a)).isSome := by
      rcases hopt : assocGet acc.uniqueAuthors (authorNameOf a) with _ | w
      · rw [hopt] at hnew; simp at hnew
      · simp
    refine ⟨?_, ?_, ?_, ?_⟩
    · simp [SynthInvariant, List.range_succ, h1, mkArticleNode]
    · simp [SynthInvariant, h2, mkArticleNode, mkRel]
    · intro r hr
      rcases List.mem_append.mp hr with hmem | hmem
      · obtain ⟨u, hu, hid⟩ := h3 r hmem
        refine ⟨u, ?_, hid⟩
        simp only [hnew, if_false, ite_false]
        exact hu
      · rw [List.mem_singleton.mp hmem]
        obtain ⟨u, hu, _, hid⟩ := h4 (authorNameOf a) hsome
        refine ⟨u, ?_, ?_⟩
        · simp only [hnew, if_false, ite_false]
          exact hu
        · simp [mkRel, hid]
    · intro nm hs
      simp only [hnew, if_false, ite_false] at hs ⊢
      exact h4 nm hs

/-- The loop invariant holds initially and is maintained through the whole
content list. -/
theorem synthLoop_invariant :
    ∀ (content : List RawArticle) (acc : SynthAcc) (idx : Nat),
      SynthInvariant acc idx →
      SynthInvariant (synthLoop acc idx content) (idx + content.length)
  | [], acc, idx, h => by simpa [synthLoop] using h
  | a :: rest, acc, idx, h => by
    have hrec := synthLoop_invariant rest (synthStep acc idx a) (idx + 1)
      (synthStep_invariant acc idx a h)
    rw [show idx + (a :: rest).length = (idx + 1) + rest.length by
      simp [List.length_cons]; omega]
    exact hrec

/-- The empty accumulator satisfies the invariant at index 0. -/
theorem synthInit_invariant : SynthInvariant synthInit 0 := by
  refine ⟨rfl, rfl, ?_, ?_⟩
  · intro r hr
    simp [synthInit] at hr
  · intro nm hs
    simp [synthInit, assocGet] at hs

/-- Consequences of the loop invariant: relationship endpoints exist among
the nodes, and article ids occur at most once as an `AUTHORED_BY`
source. -/
theorem synthInvariant_consequences (acc : SynthAcc) (idx : Nat)
    (h : SynthInvariant acc idx) :
    (∀ r ∈ acc.relationships,
      (∃ a ∈ acc.articles, a.id = r.source_id) ∧
      (∃ u ∈ acc.authors, u.id = r.target_id)) ∧
    (∀ a : ArticleNode,
      (acc.relationships.filter
        (fun r => r.source_id == a.id && r.type == "AUTHORED_BY")).length ≤ 1) := by
  obtain ⟨h1, h2, h3, _⟩ := h
  have hnodup : (acc.articles.map ArticleNode.id).Nodup := by
    rw [h1]
    exact List.Nodup.map articleIdOf_injective (List.nodup_range idx)
  constructor
  · intro r hr
    refine ⟨?_, h3 r hr⟩
    have hmem : r.source_id ∈ acc.relationships.map Relationship.source_id :=
      List.mem_map_of_mem _ hr
    rw [h2] at hmem
    obtain ⟨a, ha, haid⟩ := List.mem_map.mp hmem
    exact ⟨a, ha, haid⟩
  · intro a
    have step1 : (acc.relationships.filter
        (fun r => r.source_id == a.id && r.type == "AUTHORED_BY")).length =
        acc.relationships.countP
          (fun r => r.source_id == a.id && r.type == "AUTHORED_BY") :=
      (List.countP_eq_length_filter _ _).symm
    have step2 : acc.relationships.countP
        (fun r => r.source_id == a.id && r.type == "AUTHORED_BY") ≤
        acc.relationships.countP (fun r => r.source_id == a.id) := by
      apply List.countP_mono_left
      intro x _ hpx
      exact (Bool.and_eq_true _ _ |>.mp hpx).1
    have step3 : acc.relationships.countP (fun r => r.source_id == a.id) =
        (acc.relationships.map Relationship.source_id).countP
          (fun sid => sid == a.id) := by
      rw [List.countP_map]
      rfl
    have step4 : (acc.relationships.map Relationship.source_id).countP
        (fun sid => sid == a.id) =
        (acc.articles.map ArticleNode.id).count a.id := by
      rw [h2]; rfl
    have step5 : (acc.articles.map ArticleNode.id).count a.id ≤ 1 :=
      List.nodup_iff_count_le_one.mp hnodup a.id
    omega

/-- C7: every knowledge graph produced by the synthesizer satisfies the
spec's invariant — each relationship's `source_id` is the id of an article
node and its `target_id` is the id of an author node, and every article
node is the source of at most one `AUTHORED_BY` relationship. -/
theorem C7_knowledge_graph_invariant (rd : RawData) (ts : String) (flag : Bool)
    (g : SynthesizedKnowledge) (h : performSynthesis rd ts flag = some g) :
    (∀ r ∈ g.extracted_entities.relationships,
      (∃ a ∈ g.extracted_entities.articles, a.id = r.source_id) ∧
      (∃ u ∈ g.extracted_entities.authors, u.id = r.target_id)) ∧
    (∀ a ∈ g.extracted_entities.articles,
      (g.extracted_entities.relationships.filter
        (fun r => r.source_id == a.id && r.type == "AUTHORED_BY")).length ≤ 1) := by
  cases rd with
  | falsy => simp [performSynthesis] at h
  | noContentList =>
    rw [performSynthesis] at h
    obtain rfl := (Option.some.inj h)
    constructor
    · intro r hr
      simp [mkSynthesized, synthInit] at hr
    · intro a ha
      simp [mkSynthesized, synthInit] at ha
  | withContent content =>
    rw [performSynthesis] at h
    obtain rfl := (Option.some.inj h)
    have hinv := synthLoop_invariant content synthInit 0 synthInit_invariant
    have hcons := synthInvariant_consequences _ _ hinv
    exact ⟨hcons.1, fun a _ => hcons.2 a⟩

/-- C7 witness: the invariant evaluated on a two-article raw input (one
attributed article, one fully missing). -/
theorem C7_knowledge_graph_invariant_witness :
    (∀ r ∈ (mkSynthesized "2025-06-01T10:00:00" true
        (synthLoop synthInit 0 exContent)).extracted_entities.relationships,
      (∃ a ∈ (mkSynthesized "2025-06-01T10:00:00" true
        (synthLoop synthInit 0 exContent)).extracted_entities.articles,
        a.id = r.source_id) ∧
      (∃ u ∈ (mkSynthesized "2025-06-01T10:00:00" true
        (synthLoop synthInit 0 exContent)).extracted_entities.authors,
        u.id = r.target_id)) ∧
    (∀ a ∈ (mkSynthesized "2025-06-01T10:00:00" true
        (synthLoop synthInit 0 exContent)).extracted_entities.articles,
      ((mkSynthesized "2025-06-01T10:00:00" true
        (synthLoop synthInit 0 exContent)).extracted_entities.relationships.filter
        (fun r => r.source_id == a.id && r.type == "AUTHORED_BY")).length ≤ 1) :=
  C7_knowledge_graph_invariant (RawData.withContent exContent)
    "2025-06-01T10:00:00" true _ rfl

/-- A raw article whose author entry is missing, empty after stripping, or
`"na"` ignoring case is assigned the hard-coded placeholder author
`"Marco Perini"` (`knowledge_synthesis_agent.py` lines 47-51). -/
theorem authorNameOf_placeholder (a : RawArticle)
    (h : a.author = none ∨ pyStrip (a.author.getD "") = "" ∨
         pyLower (pyStrip (a.author.getD "")) = "na") :
    authorNameOf a = "Marco Perini" := by
  simp only [authorNameOf]
  rcases h with h | h | h
  · rw [h, if_pos (Or.inl (by decide))]
  · rw [if_pos (Or.inl h)]
  · rw [if_pos (Or.inr h)]

/-- A synthesis iteration never removes relationships or author nodes. -/
theorem synthStep_mem_mono (acc : SynthAcc) (idx : Nat) (a : RawArticle) :
    (∀ r, r ∈ acc.relationships → r ∈ (synthStep acc idx a).relationships) ∧
    (∀ u, u ∈ acc.authors → u ∈ (synthStep acc idx a).authors) := by
  rw [synthStep_eq]
  constructor
  · intro r hr
    exact List.mem_append_left _ hr
  · intro u hu
    by_cases hnew : (assocGet acc.uniqueAuthors (authorNameOf a)).isNone
    · simp only [hnew, if_true]
      exact List.mem_append_left _ hu
    · simp only [hnew, if_false, ite_false]
      exact hu

/-- The synthesis loop never removes relationships or author nodes. -/
theorem synthLoop_mem_mono (content : List RawArticle) :
    ∀ (acc : SynthAcc) (idx : Nat),
      (∀ r, r ∈ acc.relationships → r ∈ (synthLoop acc idx content).relationships) ∧
      (∀ u, u ∈ acc.authors → u ∈ (synthLoop acc idx content).authors) := by
  induction content with
  | nil => intro acc idx; exact ⟨fun r hr => hr, fun u hu => hu⟩
  | cons a0 rest ih =>
    intro acc idx
    have hstep := synthStep_mem_mono acc idx a0
    have hrec := ih (synthStep acc idx a0) (idx + 1)
    exact ⟨fun r hr => hrec.1 r (hstep.1 r hr),
           fun u hu => hrec.2 u (hstep.2 u hu)⟩

/-- After one iteration an author node carrying the article's author name
exists (either it was just appended, or `unique_authors` already recorded
it and the invariant supplies the node). -/
theorem synthStep_author_exists (acc : SynthAcc) (idx : Nat) (a : RawArticle)
    (hinv : SynthInvariant acc idx) :
    ∃ u ∈ (synthStep acc idx a).authors, u.name = authorNameOf a := by
  obtain ⟨_, _, _, h4⟩ := hinv
  rw [synthStep_eq]
  by_cases hnew : (assocGet acc.uniqueAuthors (authorNameOf a)).isNone
  · refine ⟨mkAuthorNode (authorNameOf a), ?_, rfl⟩
    simp [hnew]
  · have hsome : (assocGet acc.uniqueAuthors (authorNameOf a)).isSome := by
      rcases hopt : assocGet acc.uniqueAuthors (authorNameOf a) with _ | w
      · rw [hopt] at hnew; simp at hnew
      · simp
    obtain ⟨u, hu, hnm, _⟩ := h4 (authorNameOf a) hsome
    refine ⟨u, ?_, hnm⟩
    simp only [hnew, if_false, ite_false]
    exact hu

/-- Processing the article at position `i` of the remaining content adds
its `AUTHORED_BY` relationship (with the id derived from its author name)
and guarantees an author node carrying that name. -/
theorem synthLoop_rel_of_get (content : List RawArticle) :
    ∀ (acc : SynthAcc) (idx i : Nat) (a : RawArticle),
      content.get? i = some a → SynthInvariant acc idx →
      mkRel (idx + i) (authorNameOf a) ∈ (synthLoop acc idx content).relationships ∧
      ∃ u ∈ (synthLoop acc idx content).authors, u.name = authorNameOf a := by
  induction content with
  | nil =>
    intro acc idx i a hget _
    simp at hget
  | cons a0 rest ih =>
    intro acc idx i a hget hinv
    match i, hget with
    | 0, hget =>
      obtain rfl : a = a0 := by simpa using hget.symm
      have hmono := synthLoop_mem_mono rest (synthStep acc idx a) (idx + 1)
      constructor
      · refine hmono.1 _ ?_
        rw [synthStep_eq]
        exact List.mem_append_right _ (List.mem_singleton.mpr rfl)
      · obtain ⟨u, hu, hnm⟩ := synthStep_author_exists acc idx a hinv
        exact ⟨u, hmono.2 u hu, hnm⟩
    | i + 1, hget =>
      have hget' : rest.get? i = some a := by simpa using hget
      have hrec := ih (synthStep acc idx a0) (idx + 1) i a hget'
        (synthStep_invariant acc idx a0 hinv)
      rw [show idx + (i + 1) = (idx + 1) + i by omega]
      exact hrec

/-- C10: every raw article whose author field is missing, empty, or equal
to `"na"` ignoring case is linked by an `AUTHORED_BY` relationship to the
hard-coded placeholder author node id `author_marco_perini`, and an author
node named `"Marco Perini"` (not a generic unknown-author marker) is
present in the produced graph. -/
theorem C10_placeholder_author (content : List RawArticle) (ts : String)
    (flag : Bool) (i : Nat) (a : RawArticle)
    (hget : content.get? i = some a)
    (hauthor : a.author = none ∨ pyStrip (a.author.getD "") = "" ∨
               pyLower (pyStrip (a.author.getD "")) = "na") :
    ∃ g, performSynthesis (RawData.withContent content) ts flag = some g ∧
      { source_id := articleIdOf i, type := "AUTHORED_BY",
        target_id := "author_marco_perini" : Relationship } ∈
        g.extracted_entities.relationships ∧
      ∃ u ∈ g.extracted_entities.authors, u.name = "Marco Perini" := by
  refine ⟨mkSynthesized ts flag (synthLoop synthInit 0 content), rfl, ?_, ?_⟩
  all_goals
    have hname := authorNameOf_placeholder a hauthor
    have h := synthLoop_rel_of_get content synthInit 0 i a hget synthInit_invariant
  · have h1 := h.1
    rw [hname] at h1
    have heq : mkRel (0 + i) "Marco Perini" =
        { source_id := articleIdOf i, type := "AUTHORED_BY",
          target_id := "author_marco_perini" : Relationship } := by
      simp [mkRel, Nat.zero_add,
        show authorIdOf "Marco Perini" = "author_marco_perini" from by decide]
    rw [heq] at h1
    simpa [mkSynthesized] using h1
  · have h2 := h.2
    rw [hname] at h2
    simpa [mkSynthesized] using h2

/-- C10 witness: a single article whose scraped author is the string
`"NA"`. -/
theorem C10_placeholder_author_witness :
    ∃ g, performSynthesis (RawData.withContent
        [{ title := some "T", description := some "D", author := some "NA" }])
        "2025-06-01T10:00:00" true = some g ∧
      { source_id := articleIdOf 0, type := "AUTHORED_BY",
        target_id := "author_marco_perini" : Relationship } ∈
        g.extracted_entities.relationships ∧
      ∃ u ∈ g.extracted_entities.authors, u.name = "Marco Perini" :=
  C10_placeholder_author _ "2025-06-01T10:00:00" true 0 _ rfl
    (Or.inr (Or.inr (by decide)))
